import Mathlib

/-
  Shallow embedding of the Gather/Waypoint Convex backend
  (sessions.ts, presence mutations, destinations, eta.ts).

  Numbers (coordinates, timestamps in milliseconds, distances) are modelled
  as rationals.  The transcendental haversine distance is abstracted as an
  explicit function parameter named dist wherever the source calls
  haversineDistance; every theorem quantifies over it -- all verified
  behaviour of the source is independent of the concrete distance values
  except through the comparisons the source performs on them.

  The Convex document store is modelled as lists of rows; db.get and
  indexed first() lookups become List.find?, collect() becomes
  List.filter, patch becomes an id-directed List.map, insert appends a row
  carrying a fresh id drawn from a nextId counter, delete filters by id.
  A handler that throws is modelled by Outcome.thrown with the thrown
  message; a normal return is Outcome.returned.
-/

namespace Gather

/-- A latitude/longitude pair. -/
structure GeoPoint where
  latitude : ℚ
  longitude : ℚ
deriving DecidableEq

/-- The closed set of user-declared delay kinds (presence schema). -/
inductive DelayType where
  | traffic
  | blocked
  | slow
  | other
deriving DecidableEq

/-- The delayStatus object embedded in a presence row. -/
structure DelayStatus where
  type : DelayType
  delayMinutes : ℚ
  reportedAt : ℚ
deriving DecidableEq

/-- Session lifecycle status. -/
inductive SessionStatus where
  | active
  | ended
deriving DecidableEq

/-- The shared destination object written by setWaypoint. -/
structure DestinationObj where
  latitude : ℚ
  longitude : ℚ
  name : Option String
  updatedAt : ℚ
deriving DecidableEq

/-- A row of the sessions table. -/
structure SessionRow where
  id : ℕ
  code : String
  destination : Option DestinationObj
  status : SessionStatus
  createdAt : ℚ
  expiresAt : ℚ
deriving DecidableEq

/-- A row of the participants table. -/
structure ParticipantRow where
  id : ℕ
  sessionId : ℕ
  deviceId : String
  displayName : String
  color : String
  joinedAt : ℚ
  lastSeenAt : ℚ
deriving DecidableEq

/-- A row of the presence table. -/
structure PresenceRow where
  id : ℕ
  participantId : ℕ
  sessionId : ℕ
  latitude : ℚ
  longitude : ℚ
  heading : Option ℚ
  speed : Option ℚ
  accuracy : Option ℚ
  updatedAt : ℚ
  delayStatus : Option DelayStatus
deriving DecidableEq

/-- A row of the routes table (the ETA cache). -/
structure RouteRow where
  id : ℕ
  sessionId : ℕ
  participantId : ℕ
  polyline : String
  distanceMeters : ℚ
  etaSeconds : ℚ
  originLatitude : ℚ
  originLongitude : ℚ
  computedAt : ℚ
deriving DecidableEq

/-- The whole document store. -/
structure Store where
  sessions : List SessionRow
  participants : List ParticipantRow
  presence : List PresenceRow
  routes : List RouteRow
  nextId : ℕ
deriving DecidableEq

/-- Result of a Convex handler: it either throws an Error or returns. -/
inductive Outcome (α : Type) where
  | thrown (msg : String)
  | returned (value : α)
deriving DecidableEq

-- Thresholds, from the heads of the presence and eta modules.
def MAX_SPEED_MPS : ℚ := 50
def MAX_ACCURACY_METERS : ℚ := 100
def STALE_THRESHOLD_MS : ℚ := 60000
def DELAY_EXPIRY_MS : ℚ := 15 * 60 * 1000
def ROUTE_STALE_MS : ℚ := 5 * 60 * 1000
def ROUTE_ORIGIN_DRIFT_M : ℚ := 500
def SESSION_TTL_MS : ℚ := 4 * 60 * 60 * 1000

/-- ctx.db.get on the sessions table. -/
def getSession (db : Store) (sessionId : ℕ) : Option SessionRow :=
  db.sessions.find? (fun s => s.id == sessionId)

/-- The by_device_session indexed first() participant lookup. -/
def findParticipant (db : Store) (deviceId : String) (sessionId : ℕ) :
    Option ParticipantRow :=
  db.participants.find? (fun p => p.deviceId == deviceId && p.sessionId == sessionId)

/-- The by_participant indexed first() presence lookup. -/
def findPresence (db : Store) (participantId : ℕ) : Option PresenceRow :=
  db.presence.find? (fun p => p.participantId == participantId)

/-- The accuracy gate: accuracy is present and exceeds the ceiling. -/
def accuracyTooLow (accuracy : Option ℚ) : Bool :=
  match accuracy with
  | some a => decide (a > MAX_ACCURACY_METERS)
  | none => false

/-- The teleport guard applied when a prior presence row exists:
it fires only when the elapsed time is positive, the prior latitude is
nonzero, and the implied speed exceeds the ceiling. -/
def speedGuardRejects (dist : GeoPoint → GeoPoint → ℚ) (now : ℚ)
    (prior : PresenceRow) (latitude longitude : ℚ) : Bool :=
  let timeDelta := (now - prior.updatedAt) / 1000
  if timeDelta > 0 ∧ prior.latitude ≠ 0 then
    let distance := dist ⟨prior.latitude, prior.longitude⟩ ⟨latitude, longitude⟩
    let calculatedSpeed := distance / timeDelta
    decide (calculatedSpeed > MAX_SPEED_MPS)
  else
    false

/-- The patch of lastSeenAt on a participant row. -/
def patchLastSeen (db : Store) (participantId : ℕ) (now : ℚ) : Store :=
  { db with participants :=
      db.participants.map (fun p =>
        if p.id == participantId then { p with lastSeenAt := now } else p) }

/-- Arguments of the updateLocation mutation. -/
structure UpdateLocationArgs where
  sessionId : ℕ
  deviceId : String
  latitude : ℚ
  longitude : ℚ
  heading : Option ℚ
  speed : Option ℚ
  accuracy : Option ℚ
deriving DecidableEq

/-- The client-level result object of updateLocation. -/
structure UpdateResult where
  accepted : Bool
  reason : Option String
deriving DecidableEq

/-- The patch applied to an existing presence row by an accepted update:
every submitted field is overwritten, the timestamp is set to now, and the
delayStatus is explicitly preserved. -/
def patchedPresence (existingPresence : PresenceRow) (args : UpdateLocationArgs)
    (now : ℚ) : PresenceRow :=
  { existingPresence with
      latitude := args.latitude
      longitude := args.longitude
      heading := args.heading
      speed := args.speed
      accuracy := args.accuracy
      updatedAt := now
      delayStatus := existingPresence.delayStatus }

/-- The fresh presence row inserted on a first accepted update. -/
def freshPresence (id participantId : ℕ) (args : UpdateLocationArgs)
    (now : ℚ) : PresenceRow :=
  ⟨id, participantId, args.sessionId, args.latitude, args.longitude,
   args.heading, args.speed, args.accuracy, now, none⟩

/-- The updateLocation mutation of the presence module.  dist stands for
the haversineDistance function; now stands for Date.now(). -/
def updateLocation (dist : GeoPoint → GeoPoint → ℚ) (now : ℚ) (db : Store)
    (args : UpdateLocationArgs) : Outcome UpdateResult × Store :=
  match getSession db args.sessionId with
  | none => (.thrown "Session not active", db)
  | some session =>
    if session.status ≠ SessionStatus.active then
      (.thrown "Session not active", db)
    else
      match findParticipant db args.deviceId args.sessionId with
      | none => (.thrown "Not in session", db)
      | some participant =>
        if accuracyTooLow args.accuracy then
          (.returned ⟨false, some "GPS accuracy too low"⟩, db)
        else
          match findPresence db participant.id with
          | some existingPresence =>
            if speedGuardRejects dist now existingPresence args.latitude args.longitude then
              (.returned ⟨false, some "Movement too fast (teleport rejected)"⟩, db)
            else
              let db1 : Store :=
                { db with presence :=
                    db.presence.map (fun p =>
                      if p.id == existingPresence.id then
                        patchedPresence existingPresence args now
                      else p) }
              (.returned ⟨true, none⟩, patchLastSeen db1 participant.id now)
          | none =>
            let db1 : Store :=
              { db with
                  presence := db.presence ++ [freshPresence db.nextId participant.id args now]
                  nextId := db.nextId + 1 }
            (.returned ⟨true, none⟩, patchLastSeen db1 participant.id now)

/-- Whether an updateLocation outcome is an accepted update. -/
def isAccepted (o : Outcome UpdateResult) : Bool :=
  match o with
  | .returned r => r.accepted
  | .thrown _ => false

/-- Arguments of the reportDelay mutation. -/
structure DelayArgs where
  sessionId : ℕ
  deviceId : String
  type : DelayType
  delayMinutes : ℚ
deriving DecidableEq

/-- The reportDelay mutation.  It looks up the participant and its
presence row and patches the delayStatus object; it performs no check of
the session at all. -/
def reportDelay (now : ℚ) (db : Store) (args : DelayArgs) :
    Outcome Bool × Store :=
  match findParticipant db args.deviceId args.sessionId with
  | none => (.thrown "Not in session", db)
  | some participant =>
    match findPresence db participant.id with
    | none => (.thrown "No presence record", db)
    | some presence =>
      let patched : PresenceRow :=
        { presence with delayStatus := some ⟨args.type, args.delayMinutes, now⟩ }
      (.returned true,
       { db with presence :=
           db.presence.map (fun p => if p.id == presence.id then patched else p) })

/-- The clearDelay mutation: sets delayStatus to undefined. -/
def clearDelay (db : Store) (sessionId : ℕ) (deviceId : String) :
    Outcome Bool × Store :=
  match findParticipant db deviceId sessionId with
  | none => (.thrown "Not in session", db)
  | some participant =>
    match findPresence db participant.id with
    | none => (.thrown "No presence record", db)
    | some presence =>
      let patched : PresenceRow := { presence with delayStatus := none }
      (.returned true,
       { db with presence :=
           db.presence.map (fun p => if p.id == presence.id then patched else p) })

/-- Lookup in the Map the queries build from a list of presence records;
a JS Map keeps the last entry for a repeated key, hence the reverse. -/
def mapLookup (records : List PresenceRow) (participantId : ℕ) :
    Option PresenceRow :=
  records.reverse.find? (fun p => p.participantId == participantId)

/-- The location object published by getLiveParticipants. -/
structure LiveLocation where
  latitude : ℚ
  longitude : ℚ
  heading : Option ℚ
  speed : Option ℚ
  updatedAt : ℚ
deriving DecidableEq

/-- The delay object published by getLiveParticipants. -/
structure LiveDelay where
  type : DelayType
  minutes : ℚ
  isExpired : Bool
deriving DecidableEq

/-- One entry of the getLiveParticipants view. -/
structure LiveParticipant where
  id : ℕ
  displayName : String
  color : String
  isActive : Bool
  location : Option LiveLocation
  delay : Option LiveDelay
deriving DecidableEq

/-- The entry getLiveParticipants builds for one participant. -/
def liveEntry (now : ℚ) (sessionPresence : List PresenceRow)
    (participant : ParticipantRow) : LiveParticipant :=
  let presence := mapLookup sessionPresence participant.id
  let isActive := decide (now - participant.lastSeenAt < STALE_THRESHOLD_MS)
  let delay : Option LiveDelay :=
    match presence with
    | some pr =>
      match pr.delayStatus with
      | some ds =>
        if now - ds.reportedAt > DELAY_EXPIRY_MS then none
        else some ⟨ds.type, ds.delayMinutes, false⟩
      | none => none
    | none => none
  let location : Option LiveLocation :=
    match presence with
    | some pr => some ⟨pr.latitude, pr.longitude, pr.heading, pr.speed, pr.updatedAt⟩
    | none => none
  ⟨participant.id, participant.displayName, participant.color, isActive, location, delay⟩

/-- The getLiveParticipants query: maps every session participant to a
view entry and keeps only the active ones.  It is a pure read: it returns
a list and never touches the store. -/
def getLiveParticipants (now : ℚ) (db : Store) (sessionId : ℕ) :
    List LiveParticipant :=
  let participants := db.participants.filter (fun p => p.sessionId == sessionId)
  let presenceRecords := db.presence.filter (fun p => p.sessionId == sessionId)
  (participants.map (liveEntry now presenceRecords)).filter (fun p => p.isActive)

/-- The setWaypoint mutation: requires an existing active session, patches
the destination, then deletes every cached route of the session. -/
def setWaypoint (now : ℚ) (db : Store) (sessionId : ℕ)
    (latitude longitude : ℚ) (name : Option String) : Outcome Bool × Store :=
  match getSession db sessionId with
  | none => (.thrown "Session not found", db)
  | some session =>
    if session.status ≠ SessionStatus.active then
      (.thrown "Session not active", db)
    else
      let db1 : Store :=
        { db with sessions :=
            db.sessions.map (fun s =>
              if s.id == sessionId then
                { s with destination := some ⟨latitude, longitude, name, now⟩ }
              else s) }
      (.returned true,
       { db1 with routes := db1.routes.filter (fun r => !(r.sessionId == sessionId)) })

/-- The clearWaypoint mutation: requires an existing session (the status
is not checked), clears the destination, then deletes every cached route
of the session. -/
def clearWaypoint (db : Store) (sessionId : ℕ) : Outcome Bool × Store :=
  match getSession db sessionId with
  | none => (.thrown "Session not found", db)
  | some _ =>
    let db1 : Store :=
      { db with sessions :=
          db.sessions.map (fun s =>
            if s.id == sessionId then { s with destination := none } else s) }
    (.returned true,
     { db1 with routes := db1.routes.filter (fun r => !(r.sessionId == sessionId)) })

/-- One parsed route of the OSRM response body; the GeoJSON geometry is
opaque to the engine and is modelled by its JSON string. -/
structure OsrmRoute where
  geometry : String
  distance : ℚ
  duration : ℚ
deriving DecidableEq

/-- The outcome of the external fetch of computeRoute: the fetch itself
may fail, the response may be non-ok, or a body with a routes list is
parsed. -/
inductive OsrmOutcome where
  | fetchFailed
  | httpNotOk (status : ℕ)
  | payload (routes : List OsrmRoute)
deriving DecidableEq

/-- The value computeRoute returns to its caller. -/
inductive RouteResult where
  | ok (polyline : String) (distanceMeters etaSeconds : ℚ)
  | failed (error : String)
deriving DecidableEq

/-- The cacheRoute internal mutation: upsert keyed by participant. -/
def cacheRoute (now : ℚ) (db : Store) (sessionId participantId : ℕ)
    (polyline : String) (distanceMeters etaSeconds originLatitude originLongitude : ℚ) :
    Store :=
  match db.routes.find? (fun r => r.participantId == participantId) with
  | some existing =>
    let patched : RouteRow :=
      { existing with
          polyline := polyline
          distanceMeters := distanceMeters
          etaSeconds := etaSeconds
          originLatitude := originLatitude
          originLongitude := originLongitude
          computedAt := now }
    { db with routes :=
        db.routes.map (fun r => if r.id == existing.id then patched else r) }
  | none =>
    { db with
        routes := db.routes ++
          [⟨db.nextId, sessionId, participantId, polyline, distanceMeters,
            etaSeconds, originLatitude, originLongitude, now⟩]
        nextId := db.nextId + 1 }

/-- Arguments of the computeRoute action. -/
structure ComputeRouteArgs where
  sessionId : ℕ
  participantId : ℕ
  originLatitude : ℚ
  originLongitude : ℚ
  destLatitude : ℚ
  destLongitude : ℚ
deriving DecidableEq

/-- The computeRoute action.  Every failure of the external call -- the
fetch throwing, a non-ok response, or an empty routes list -- lands in
the catch block, which returns a failure and performs no store write;
only a non-empty routes list reaches the cacheRoute upsert. -/
def computeRoute (response : OsrmOutcome) (now : ℚ) (db : Store)
    (args : ComputeRouteArgs) : RouteResult × Store :=
  match response with
  | .fetchFailed => (.failed "network error", db)
  | .httpNotOk status => (.failed ("OSRM error: " ++ toString status), db)
  | .payload [] => (.failed "No route found", db)
  | .payload (route :: _) =>
    (.ok route.geometry route.distance route.duration,
     cacheRoute now db args.sessionId args.participantId route.geometry
       route.distance route.duration args.originLatitude args.originLongitude)

/-- One entry of the getETAs response. -/
structure EtaEntry where
  participantId : ℕ
  polyline : String
  distanceMeters : ℚ
  etaSeconds : ℚ
  computedAt : ℚ
  isStale : Bool
deriving DecidableEq

/-- The getETAs response. -/
structure EtaResponse where
  hasDestination : Bool
  destination : Option DestinationObj
  etas : List EtaEntry
deriving DecidableEq

/-- The entry getETAs builds for one cached route. -/
def etaEntry (dist : GeoPoint → GeoPoint → ℚ) (now : ℚ)
    (sessionPresence : List PresenceRow) (route : RouteRow) : EtaEntry :=
  let presence := mapLookup sessionPresence route.participantId
  let isTimeStale := decide (now - route.computedAt > ROUTE_STALE_MS)
  let isDriftStale :=
    match presence with
    | some p =>
      decide (dist ⟨route.originLatitude, route.originLongitude⟩
        ⟨p.latitude, p.longitude⟩ > ROUTE_ORIGIN_DRIFT_M)
    | none => false
  ⟨route.participantId, route.polyline, route.distanceMeters, route.etaSeconds,
   route.computedAt, isTimeStale || isDriftStale⟩

/-- The getETAs query.  Every cached route of the session yields an entry;
staleness is a flag on the entry, not a filter.  A pure read. -/
def getETAs (dist : GeoPoint → GeoPoint → ℚ) (now : ℚ) (db : Store)
    (sessionId : ℕ) : EtaResponse :=
  match getSession db sessionId with
  | none => ⟨false, none, []⟩
  | some session =>
    match session.destination with
    | none => ⟨false, none, []⟩
    | some dest =>
      let routes := db.routes.filter (fun r => r.sessionId == sessionId)
      let presenceRecords := db.presence.filter (fun p => p.sessionId == sessionId)
      ⟨true, some dest, routes.map (etaEntry dist now presenceRecords)⟩

/-- The participant color palette of the session module. -/
def COLORS : List String :=
  ["#34D399", "#60A5FA", "#F472B6", "#FBBF24",
   "#A78BFA", "#FB923C", "#14B8A6", "#EC4899"]

/-- Whether a session with this code already exists. -/
def codeTaken (db : Store) (code : String) : Bool :=
  (db.sessions.find? (fun s => s.code == code)).isSome

/-- The retry loop of createSession: up to ten regenerations on collision,
after which the last candidate is used regardless.  codes enumerates the
successive outputs of generateCode (Math.random is abstracted). -/
def pickCodeLoop (db : Store) (codes : ℕ → String) : ℕ → ℕ → String
  | 0, i => codes i
  | fuel + 1, i =>
    if codeTaken db (codes i) then pickCodeLoop db codes fuel (i + 1) else codes i

/-- The code chosen by createSession. -/
def pickCode (db : Store) (codes : ℕ → String) : String :=
  pickCodeLoop db codes 10 0

/-- The value createSession returns. -/
structure CreateSessionValue where
  sessionId : ℕ
  code : String
  participantId : ℕ
deriving DecidableEq

/-- The createSession mutation: inserts the session, auto-adds the creator
as first participant, and initializes an empty presence row for the
creator at latitude 0, longitude 0. -/
def createSession (codes : ℕ → String) (now : ℚ) (db : Store)
    (deviceId displayName : String) : CreateSessionValue × Store :=
  let code := pickCode db codes
  let sessionId := db.nextId
  let participantId := db.nextId + 1
  let session : SessionRow :=
    ⟨sessionId, code, none, SessionStatus.active, now, now + SESSION_TTL_MS⟩
  let participant : ParticipantRow :=
    ⟨participantId, sessionId, deviceId, displayName, COLORS.getD 0 "", now, now⟩
  let presenceRow : PresenceRow :=
    ⟨db.nextId + 2, participantId, sessionId, 0, 0, none, none, none, now, none⟩
  (⟨sessionId, code, participantId⟩,
   { db with
       sessions := db.sessions ++ [session]
       participants := db.participants ++ [participant]
       presence := db.presence ++ [presenceRow]
       nextId := db.nextId + 3 })

/-- The JS toUpperCase applied to the invite code, modelled structurally
as an uppercase map over the character list. -/
def toUpperCase (s : String) : String := ⟨s.data.map Char.toUpper⟩

/-- The value joinSession returns. -/
structure JoinValue where
  sessionId : ℕ
  participantId : ℕ
  alreadyJoined : Bool
deriving DecidableEq

/-- The joinSession mutation: finds the session by upper-cased code,
checks status and expiry, short-circuits when the device already joined,
otherwise inserts a participant and an empty presence row at latitude 0,
longitude 0. -/
def joinSession (now : ℚ) (db : Store) (code deviceId displayName : String) :
    Outcome JoinValue × Store :=
  match db.sessions.find? (fun s => s.code == toUpperCase code) with
  | none => (.thrown "Session not found", db)
  | some session =>
    if session.status ≠ SessionStatus.active then
      (.thrown "Session has ended", db)
    else if now > session.expiresAt then
      (.thrown "Session has expired", db)
    else
      match db.participants.find? (fun p =>
          p.deviceId == deviceId && p.sessionId == session.id) with
      | some existing => (.returned ⟨session.id, existing.id, true⟩, db)
      | none =>
        let members := db.participants.filter (fun p => p.sessionId == session.id)
        let color := COLORS.getD (members.length % COLORS.length) ""
        let participantId := db.nextId
        let participant : ParticipantRow :=
          ⟨participantId, session.id, deviceId, displayName, color, now, now⟩
        let presenceRow : PresenceRow :=
          ⟨db.nextId + 1, participantId, session.id, 0, 0, none, none, none, now, none⟩
        (.returned ⟨session.id, participantId, false⟩,
         { db with
             participants := db.participants ++ [participant]
             presence := db.presence ++ [presenceRow]
             nextId := db.nextId + 2 })

/-- The presence rows of one participant. -/
def presenceOf (db : Store) (participantId : ℕ) : List PresenceRow :=
  db.presence.filter (fun p => p.participantId == participantId)

/-- How many presence rows a participant has. -/
def countPresence (db : Store) (participantId : ℕ) : ℕ :=
  (presenceOf db participantId).length

/-- The cached routes of one session. -/
def routesOfSession (db : Store) (sessionId : ℕ) : List RouteRow :=
  db.routes.filter (fun r => r.sessionId == sessionId)

/-- Folding a sequence of timed location updates through the store. -/
def runUpdates (dist : GeoPoint → GeoPoint → ℚ) :
    Store → List (ℚ × UpdateLocationArgs) → Store
  | db, [] => db
  | db, u :: rest => runUpdates dist (updateLocation dist u.1 db u.2).2 rest

/-- The subsequence of a timed update sequence that is accepted when the
sequence is run through the store. -/
def acceptedUpdates (dist : GeoPoint → GeoPoint → ℚ) :
    Store → List (ℚ × UpdateLocationArgs) → List (ℚ × UpdateLocationArgs)
  | _, [] => []
  | db, u :: rest =>
    if isAccepted (updateLocation dist u.1 db u.2).1 then
      u :: acceptedUpdates dist (updateLocation dist u.1 db u.2).2 rest
    else
      acceptedUpdates dist (updateLocation dist u.1 db u.2).2 rest

/-- Wellformedness the storage layer guarantees: presence row ids are
pairwise distinct and below the fresh-id counter. -/
def PresenceIdsOk (db : Store) : Prop :=
  (db.presence.map (fun p => p.id)).Nodup ∧ ∀ p ∈ db.presence, p.id < db.nextId

/-
  General list lemmas shared by the claim proofs.
-/

lemma find?_map_comm {α : Type} (f : α → α) (p : α → Bool) :
    ∀ l : List α, (∀ a ∈ l, p (f a) = p a) →
      (l.map f).find? p = (l.find? p).map f := by
  intro l
  induction l with
  | nil => intro _; rfl
  | cons a t ih =>
    intro h
    have ha := h a (List.mem_cons_self a t)
    cases hpa : p a with
    | true =>
      rw [List.map_cons, List.find?_cons_of_pos _ (ha.trans hpa),
        List.find?_cons_of_pos _ hpa]
      rfl
    | false =>
      rw [List.map_cons, List.find?_cons_of_neg _ (by simp [ha, hpa]),
        List.find?_cons_of_neg _ (by simp [hpa])]
      exact ih (fun b hb => h b (List.mem_cons_of_mem a hb))

lemma filter_map_comm {α : Type} (f : α → α) (p : α → Bool) :
    ∀ l : List α, (∀ a ∈ l, p (f a) = p a) →
      (l.map f).filter p = (l.filter p).map f := by
  intro l
  induction l with
  | nil => intro _; rfl
  | cons a t ih =>
    intro h
    have ha := h a (List.mem_cons_self a t)
    have ht := ih (fun b hb => h b (List.mem_cons_of_mem a hb))
    cases hpa : p a with
    | true =>
      rw [List.map_cons, List.filter_cons_of_pos (ha.trans hpa),
        List.filter_cons_of_pos hpa, List.map_cons, ht]
    | false =>
      rw [List.map_cons, List.filter_cons_of_neg (by simp [ha, hpa]),
        List.filter_cons_of_neg (by simp [hpa]), ht]

lemma filter_disjoint_nil {α : Type} (p : α → Bool) :
    ∀ l : List α, (l.filter (fun a => !(p a))).filter p = [] := by
  intro l
  induction l with
  | nil => rfl
  | cons a t ih =>
    cases hpa : p a with
    | true => rw [List.filter_cons_of_neg (by simp [hpa])]; exact ih
    | false =>
      rw [List.filter_cons_of_pos (by simp [hpa]),
        List.filter_cons_of_neg (by simp [hpa])]
      exact ih

/-
  Claim theorems.
-/

/-- Claim C6: when the external routing call fails -- the fetch throws, the
response is non-success, or the parsed body carries an empty route list --
computeRoute returns a failure result and the store, in particular the
routes cache, is left completely unchanged. -/
theorem C6_engine_failure_leaves_cache_unchanged
    (response : OsrmOutcome) (now : ℚ) (db : Store) (args : ComputeRouteArgs)
    (hfail : response = OsrmOutcome.fetchFailed ∨
      (∃ status, response = OsrmOutcome.httpNotOk status) ∨
      response = OsrmOutcome.payload []) :
    (∃ msg, (computeRoute response now db args).1 = RouteResult.failed msg) ∧
    (computeRoute response now db args).2 = db := by
  rcases hfail with h | ⟨status, h⟩ | h <;> subst h <;> exact ⟨⟨_, rfl⟩, rfl⟩

/-- Concrete witness store: one active session with a destination, one
participant, one presence row, one cached route. -/
def W8 : Store :=
  ⟨[⟨0, "ABC234", some ⟨50, 60, none, 0⟩, SessionStatus.active, 0, 14400000⟩],
   [⟨1, 0, "d", "Al", "#34D399", 0, 0⟩],
   [⟨2, 1, 0, 10, 20, none, none, none, 0, none⟩],
   [⟨3, 0, 1, "poly", 1000, 60, 10, 20, 0⟩], 4⟩

/-- Witness for C6 at a concrete failing response and store. -/
theorem C6_engine_failure_leaves_cache_unchanged_witness :
    (∃ msg, (computeRoute (OsrmOutcome.payload []) 7 W8 ⟨0, 1, 1, 2, 3, 4⟩).1
      = RouteResult.failed msg) ∧
    (computeRoute (OsrmOutcome.payload []) 7 W8 ⟨0, 1, 1, 2, 3, 4⟩).2 = W8 :=
  C6_engine_failure_leaves_cache_unchanged (OsrmOutcome.payload []) 7 W8
    ⟨0, 1, 1, 2, 3, 4⟩ (Or.inr (Or.inr rfl))

/-- Claim C7: setting the destination on an existing active session, and
clearing the destination on an existing session, both delete every cached
route of that session: immediately afterwards the session has zero cached
route rows, whatever the staleness state of each route was. -/
theorem C7_destination_change_cascade
    (now : ℚ) (db : Store) (sessionId : ℕ) (latitude longitude : ℚ)
    (name : Option String) (session : SessionRow)
    (hget : getSession db sessionId = some session)
    (hactive : session.status = SessionStatus.active) :
    routesOfSession (setWaypoint now db sessionId latitude longitude name).2 sessionId = [] ∧
    routesOfSession (clearWaypoint db sessionId).2 sessionId = [] := by
  unfold setWaypoint clearWaypoint
  rw [hget]
  simp only [hactive, ne_eq, not_true_eq_false, if_false, ite_false]
  constructor
  · exact filter_disjoint_nil _ _
  · exact filter_disjoint_nil _ _

/-- Witness for C7 at the concrete store W8 (which has one cached route). -/
theorem C7_destination_change_cascade_witness :
    routesOfSession (setWaypoint 7 W8 0 1 2 none).2 0 = [] ∧
    routesOfSession (clearWaypoint W8 0).2 0 = [] :=
  C7_destination_change_cascade 7 W8 0 1 2 none
    ⟨0, "ABC234", some ⟨50, 60, none, 0⟩, SessionStatus.active, 0, 14400000⟩
    rfl rfl

/-- Store with a session whose status is ended, holding a registered
participant with a presence row. -/
def SEnded : Store :=
  ⟨[⟨0, "ABC234", none, SessionStatus.ended, 0, 14400000⟩],
   [⟨1, 0, "d", "Al", "#34D399", 0, 0⟩],
   [⟨2, 1, 0, 10, 20, none, none, none, 0, none⟩],
   [], 3⟩

/-- Store with an active-status session whose expiry time (100) is long
past at read time 99999. -/
def SExpired : Store :=
  ⟨[⟨0, "ABC234", none, SessionStatus.active, 0, 100⟩],
   [⟨1, 0, "d", "Al", "#34D399", 0, 0⟩],
   [⟨2, 1, 0, 10, 20, none, none, none, 0, none⟩],
   [], 3⟩

/-- Counterexample to claim C2 as stated.  First conjunct block: on a
session whose status is ended, reportDelay succeeds and writes a delay
annotation into the presence store -- the delay mutations never consult
the session at all.  Second block: on a session whose status is active but
whose expiry time 100 lies before the current time 99999, updateLocation
accepts and mutates the store -- no mutation ever consults expiresAt. -/
theorem C2_counterexample :
    ((getSession SEnded 0).map (fun s => s.status) = some SessionStatus.ended ∧
     (reportDelay 5 SEnded ⟨0, "d", DelayType.traffic, 5⟩).1 = Outcome.returned true ∧
     (reportDelay 5 SEnded ⟨0, "d", DelayType.traffic, 5⟩).2.presence.map
       (fun p => p.delayStatus) = [some ⟨DelayType.traffic, 5, 5⟩]) ∧
    ((getSession SExpired 0).map (fun s => (s.status, s.expiresAt))
       = some (SessionStatus.active, 100) ∧
     (99999 : ℚ) > 100 ∧
     (updateLocation (fun _ _ => 0) 99999 SExpired
       ⟨0, "d", 11, 21, none, none, some 50⟩).1 = Outcome.returned ⟨true, none⟩ ∧
     (updateLocation (fun _ _ => 0) 99999 SExpired
       ⟨0, "d", 11, 21, none, none, some 50⟩).2 ≠ SExpired) := by
  refine ⟨⟨rfl, rfl, by with_unfolding_all decide⟩,
    rfl, by norm_num, by with_unfolding_all decide, ?_⟩
  intro h
  have := congrArg (fun db => db.participants.map (fun p => p.lastSeenAt)) h
  revert this
  with_unfolding_all decide

/-- Claim C2, amended to what the code implements: the only session gate
the mutations apply is a status check -- updateLocation and setWaypoint
are rejected with a thrown error and leave the store unchanged whenever
the session is missing or its status is not active.  The expiry time is
never consulted by any of these mutations, and reportDelay, clearDelay
and clearWaypoint do not check the session status at all. -/
theorem C2_amended_inactive_session_gate :
    (∀ (dist : GeoPoint → GeoPoint → ℚ) (now : ℚ) (db : Store)
       (args : UpdateLocationArgs),
      (∀ s, getSession db args.sessionId = some s → s.status ≠ SessionStatus.active) →
      (∃ msg, (updateLocation dist now db args).1 = Outcome.thrown msg) ∧
        (updateLocation dist now db args).2 = db) ∧
    (∀ (now : ℚ) (db : Store) (sessionId : ℕ) (latitude longitude : ℚ)
       (name : Option String),
      (∀ s, getSession db sessionId = some s → s.status ≠ SessionStatus.active) →
      (∃ msg, (setWaypoint now db sessionId latitude longitude name).1 = Outcome.thrown msg) ∧
        (setWaypoint now db sessionId latitude longitude name).2 = db) := by
  constructor
  · intro dist now db args hgate
    unfold updateLocation
    cases hs : getSession db args.sessionId with
    | none => exact ⟨⟨_, rfl⟩, rfl⟩
    | some s =>
      dsimp only
      rw [if_pos (hgate s hs)]
      exact ⟨⟨_, rfl⟩, rfl⟩
  · intro now db sessionId latitude longitude name hgate
    unfold setWaypoint
    cases hs : getSession db sessionId with
    | none => exact ⟨⟨_, rfl⟩, rfl⟩
    | some s =>
      dsimp only
      rw [if_pos (hgate s hs)]
      exact ⟨⟨_, rfl⟩, rfl⟩

/-- Total case analysis of updateLocation: every call either leaves the
store unchanged and is not accepted, or is accepted and performs exactly
the patch-in-place or the first-time insert, followed by the lastSeenAt
touch of the found participant. -/
lemma updateLocation_cases (dist : GeoPoint → GeoPoint → ℚ) (now : ℚ)
    (db : Store) (args : UpdateLocationArgs) :
    ((updateLocation dist now db args).2 = db ∧
      isAccepted (updateLocation dist now db args).1 = false) ∨
    (∃ part, findParticipant db args.deviceId args.sessionId = some part ∧
      ((∃ prior, findPresence db part.id = some prior ∧
        updateLocation dist now db args =
          (Outcome.returned ⟨true, none⟩,
           patchLastSeen
             { db with presence :=
                 db.presence.map (fun p =>
                   if p.id == prior.id then patchedPresence prior args now else p) }
             part.id now)) ∨
       (findPresence db part.id = none ∧
        updateLocation dist now db args =
          (Outcome.returned ⟨true, none⟩,
           patchLastSeen
             { db with
                 presence := db.presence ++ [freshPresence db.nextId part.id args now]
                 nextId := db.nextId + 1 }
             part.id now)))) := by
  unfold updateLocation
  cases hs : getSession db args.sessionId with
  | none => exact Or.inl ⟨rfl, rfl⟩
  | some session =>
    dsimp only
    by_cases hact : session.status ≠ SessionStatus.active
    · rw [if_pos hact]; exact Or.inl ⟨rfl, rfl⟩
    · rw [if_neg hact]
      cases hp : findParticipant db args.deviceId args.sessionId with
      | none => exact Or.inl ⟨rfl, rfl⟩
      | some part =>
        dsimp only
        cases hacc : accuracyTooLow args.accuracy with
        | true => rw [if_pos rfl]; exact Or.inl ⟨rfl, rfl⟩
        | false =>
          rw [if_neg Bool.false_ne_true]
          cases hpr : findPresence db part.id with
          | some prior =>
            dsimp only
            cases hguard : speedGuardRejects dist now prior args.latitude args.longitude with
            | true => rw [if_pos rfl]; exact Or.inl ⟨rfl, rfl⟩
            | false =>
              rw [if_neg Bool.false_ne_true]
              exact Or.inr ⟨part, rfl, Or.inl ⟨prior, hpr, rfl⟩⟩
          | none =>
            exact Or.inr ⟨part, rfl, Or.inr ⟨hpr, rfl⟩⟩

/-- A call that is not accepted leaves the whole store unchanged. -/
lemma not_accepted_store_unchanged (dist : GeoPoint → GeoPoint → ℚ) (now : ℚ)
    (db : Store) (args : UpdateLocationArgs)
    (h : isAccepted (updateLocation dist now db args).1 = false) :
    (updateLocation dist now db args).2 = db := by
  rcases updateLocation_cases dist now db args with
    ⟨h2, _⟩ | ⟨part, _, ⟨prior, _, hc⟩ | ⟨_, hc⟩⟩
  · exact h2
  · rw [hc] at h; cases h
  · rw [hc] at h; cases h

/-- Witness for the amended C2 at the ended-session store. -/
theorem C2_amended_inactive_session_gate_witness :
    ((∃ msg, (updateLocation (fun _ _ => 0) 7 SEnded
        ⟨0, "d", 11, 21, none, none, none⟩).1 = Outcome.thrown msg) ∧
      (updateLocation (fun _ _ => 0) 7 SEnded
        ⟨0, "d", 11, 21, none, none, none⟩).2 = SEnded) ∧
    ((∃ msg, (setWaypoint 7 SEnded 0 1 2 none).1 = Outcome.thrown msg) ∧
      (setWaypoint 7 SEnded 0 1 2 none).2 = SEnded) :=
  ⟨C2_amended_inactive_session_gate.1 (fun _ _ => 0) 7 SEnded
      ⟨0, "d", 11, 21, none, none, none⟩
      (fun s hs => by
        rw [show getSession SEnded 0 = some ⟨0, "ABC234", none, SessionStatus.ended, 0, 14400000⟩ from rfl] at hs
        cases hs
        exact fun h => by cases h),
   C2_amended_inactive_session_gate.2 7 SEnded 0 1 2 none
      (fun s hs => by
        rw [show getSession SEnded 0 = some ⟨0, "ABC234", none, SessionStatus.ended, 0, 14400000⟩ from rfl] at hs
        cases hs
        exact fun h => by cases h)⟩

/-- Store with one active session, a registered participant with
lastSeenAt 0, and a presence row at latitude 10, longitude 20, time 0. -/
def SBase : Store :=
  ⟨[⟨0, "ABC234", none, SessionStatus.active, 0, 14400000⟩],
   [⟨1, 0, "d", "Al", "#34D399", 0, 0⟩],
   [⟨2, 1, 0, 10, 20, none, none, none, 0, none⟩],
   [], 3⟩

/-- Counterexample to claim C5 as stated.  A call soft-rejected for low
accuracy (accuracy 150 > 100-meter ceiling) and a call soft-rejected for
impossible speed (100000 meters in one second) both return before the
lastSeenAt touch: the participant row keeps lastSeenAt 0 instead of being
set to the call time 1000. -/
theorem C5_counterexample :
    ((updateLocation (fun _ _ => 0) 1000 SBase
        ⟨0, "d", 11, 21, none, none, some 150⟩).1
      = Outcome.returned ⟨false, some "GPS accuracy too low"⟩ ∧
     (updateLocation (fun _ _ => 0) 1000 SBase
        ⟨0, "d", 11, 21, none, none, some 150⟩).2.participants.map
       (fun p => p.lastSeenAt) = [0]) ∧
    ((updateLocation (fun _ _ => 100000) 1000 SBase
        ⟨0, "d", 11, 21, none, none, some 50⟩).1
      = Outcome.returned ⟨false, some "Movement too fast (teleport rejected)"⟩ ∧
     (updateLocation (fun _ _ => 100000) 1000 SBase
        ⟨0, "d", 11, 21, none, none, some 50⟩).2.participants.map
       (fun p => p.lastSeenAt) = [0]) :=
  ⟨⟨by with_unfolding_all rfl, by with_unfolding_all rfl⟩,
   ⟨by with_unfolding_all rfl, by with_unfolding_all rfl⟩⟩

/-- Claim C5, amended to what the code implements: the lastSeenAt touch
happens exactly on accepted updates.  A call that is not accepted -- a
thrown precondition failure or a soft rejection for low accuracy or
impossible speed -- returns before the touch and leaves the whole store,
the participant row included, unchanged; an accepted call sets the found
participant row lastSeenAt to the current time. -/
theorem C5_amended_last_seen_only_on_accept :
    (∀ (dist : GeoPoint → GeoPoint → ℚ) (now : ℚ) (db : Store)
       (args : UpdateLocationArgs),
      isAccepted (updateLocation dist now db args).1 = false →
      (updateLocation dist now db args).2 = db) ∧
    (∀ (dist : GeoPoint → GeoPoint → ℚ) (now : ℚ) (db : Store)
       (args : UpdateLocationArgs) (part : ParticipantRow),
      findParticipant db args.deviceId args.sessionId = some part →
      isAccepted (updateLocation dist now db args).1 = true →
      (updateLocation dist now db args).2.participants
        = db.participants.map (fun p =>
            if p.id == part.id then { p with lastSeenAt := now } else p)) := by
  constructor
  · exact not_accepted_store_unchanged
  · intro dist now db args part hfind hacc
    rcases updateLocation_cases dist now db args with
      ⟨_, hno⟩ | ⟨part2, hfind2, ⟨prior, _, hc⟩ | ⟨_, hc⟩⟩
    · rw [hacc] at hno; cases hno
    · rw [hfind] at hfind2
      cases hfind2
      rw [hc]
      rfl
    · rw [hfind] at hfind2
      cases hfind2
      rw [hc]
      rfl

/-- Witness for the amended C5: a soft-rejected call leaves the store
unchanged, and an accepted call patches lastSeenAt of participant 1. -/
theorem C5_amended_last_seen_only_on_accept_witness :
    ((updateLocation (fun _ _ => 0) 1000 SBase
        ⟨0, "d", 11, 21, none, none, some 150⟩).2 = SBase) ∧
    ((updateLocation (fun _ _ => 30) 1000 SBase
        ⟨0, "d", 11, 21, none, none, some 50⟩).2.participants
      = SBase.participants.map (fun p =>
          if p.id == 1 then { p with lastSeenAt := 1000 } else p)) :=
  ⟨C5_amended_last_seen_only_on_accept.1 (fun _ _ => 0) 1000 SBase
      ⟨0, "d", 11, 21, none, none, some 150⟩ (by with_unfolding_all rfl),
   C5_amended_last_seen_only_on_accept.2 (fun _ _ => 30) 1000 SBase
      ⟨0, "d", 11, 21, none, none, some 50⟩ ⟨1, 0, "d", "Al", "#34D399", 0, 0⟩
      rfl (by with_unfolding_all rfl)⟩

/-- When one second elapsed since the prior row and the prior latitude is
nonzero, the teleport guard fires exactly when the distance, numerically
equal to the implied speed, exceeds the ceiling. -/
lemma speedGuard_at_one_second (dist : GeoPoint → GeoPoint → ℚ)
    (prior : PresenceRow) (latitude longitude d : ℚ)
    (hlat : prior.latitude ≠ 0)
    (hd : dist ⟨prior.latitude, prior.longitude⟩ ⟨latitude, longitude⟩ = d) :
    speedGuardRejects dist (prior.updatedAt + 1000) prior latitude longitude
      = decide (d > MAX_SPEED_MPS) := by
  unfold speedGuardRejects
  have h1 : (prior.updatedAt + 1000 - prior.updatedAt) / 1000 = (1 : ℚ) := by
    rw [add_sub_cancel_left]
    norm_num
  simp only [h1, hd]
  rw [if_pos ⟨by norm_num, hlat⟩, div_one]

/-- With the session active, the participant registered, the accuracy
gate passed, and a prior presence row present, the result of
updateLocation is decided by the teleport guard alone. -/
lemma updateLocation_guard_result (dist : GeoPoint → GeoPoint → ℚ) (now : ℚ)
    (db : Store) (args : UpdateLocationArgs) (session : SessionRow)
    (part : ParticipantRow) (prior : PresenceRow)
    (hs : getSession db args.sessionId = some session)
    (hact : session.status = SessionStatus.active)
    (hp : findParticipant db args.deviceId args.sessionId = some part)
    (hacc : accuracyTooLow args.accuracy = false)
    (hpr : findPresence db part.id = some prior) :
    (updateLocation dist now db args).1 =
      (if speedGuardRejects dist now prior args.latitude args.longitude then
        Outcome.returned ⟨false, some "Movement too fast (teleport rejected)"⟩
      else Outcome.returned ⟨true, none⟩) := by
  unfold updateLocation
  rw [hs]
  dsimp only
  rw [if_neg (by rw [hact]; exact fun h => h rfl)]
  rw [hp]
  dsimp only
  rw [if_neg (by rw [hacc]; exact Bool.false_ne_true)]
  rw [hpr]
  dsimp only
  cases hguard : speedGuardRejects dist now prior args.latitude args.longitude with
  | true => rw [if_pos rfl, if_pos rfl]
  | false => rw [if_neg Bool.false_ne_true, if_neg Bool.false_ne_true]

/-- Store with one active session, a registered participant, and a
presence row at the null island position (0, 0) with timestamp 0. -/
def SNull : Store :=
  ⟨[⟨0, "ABC234", none, SessionStatus.active, 0, 14400000⟩],
   [⟨1, 0, "d", "Al", "#34D399", 0, 0⟩],
   [⟨2, 1, 0, 0, 0, none, none, none, 0, none⟩],
   [], 3⟩

/-- Counterexample to claim C4 as stated.  The participant has an
existing presence row at (0, 0) with timestamp 0; an update one second
later at a point whose distance is 51 meters is ACCEPTED, not rejected:
the teleport guard is skipped whenever the prior latitude is 0 (the
null-island escape for the freshly initialized rows), so the 50 meter per
second ceiling is never applied from (0, 0). -/
theorem C4_counterexample :
    (findPresence SNull 1).map (fun p => (p.latitude, p.longitude, p.updatedAt))
      = some (0, 0, 0) ∧
    (fun _ _ => (51 : ℚ)) (⟨0, 0⟩ : GeoPoint) (⟨11, 21⟩ : GeoPoint) = 51 ∧
    (updateLocation (fun _ _ => 51) 1000 SNull
      ⟨0, "d", 11, 21, none, none, some 10⟩).1 = Outcome.returned ⟨true, none⟩ :=
  ⟨rfl, rfl, by with_unfolding_all rfl⟩

/-- Claim C4, amended to the positions the guard actually covers: for a
participant whose existing presence row has a NONZERO latitude and
timestamp T, an update submitted one second later at a point 51 meters
away is rejected with the impossible-speed reason (51 meters per second
exceeds the 50 ceiling), and the same update at a point 49 meters away is
accepted; from a prior row at latitude 0 the guard is skipped entirely
and the update is accepted, as the counterexample shows. -/
theorem C4_amended_speed_guard_boundary (dist : GeoPoint → GeoPoint → ℚ)
    (db : Store) (args1 args2 : UpdateLocationArgs) (session : SessionRow)
    (part : ParticipantRow) (prior : PresenceRow)
    (hs1 : getSession db args1.sessionId = some session)
    (hact : session.status = SessionStatus.active)
    (hp1 : findParticipant db args1.deviceId args1.sessionId = some part)
    (hacc1 : accuracyTooLow args1.accuracy = false)
    (hpr : findPresence db part.id = some prior)
    (hlat : prior.latitude ≠ 0)
    (hsid : args2.sessionId = args1.sessionId)
    (hdev : args2.deviceId = args1.deviceId)
    (hacc2 : accuracyTooLow args2.accuracy = false)
    (h51 : dist ⟨prior.latitude, prior.longitude⟩ ⟨args1.latitude, args1.longitude⟩ = 51)
    (h49 : dist ⟨prior.latitude, prior.longitude⟩ ⟨args2.latitude, args2.longitude⟩ = 49) :
    (updateLocation dist (prior.updatedAt + 1000) db args1).1
      = Outcome.returned ⟨false, some "Movement too fast (teleport rejected)"⟩ ∧
    (updateLocation dist (prior.updatedAt + 1000) db args2).1
      = Outcome.returned ⟨true, none⟩ := by
  have g1 := updateLocation_guard_result dist (prior.updatedAt + 1000) db args1
    session part prior hs1 hact hp1 hacc1 hpr
  have g2 := updateLocation_guard_result dist (prior.updatedAt + 1000) db args2
    session part prior (by rw [hsid]; exact hs1) hact
    (by rw [hsid, hdev]; exact hp1) hacc2 hpr
  have e51 : decide ((51 : ℚ) > MAX_SPEED_MPS) = true := by
    rw [decide_eq_true_eq]; unfold MAX_SPEED_MPS; norm_num
  have e49 : decide ((49 : ℚ) > MAX_SPEED_MPS) = false := by
    rw [decide_eq_false_iff_not]; unfold MAX_SPEED_MPS; norm_num
  rw [g1, g2, speedGuard_at_one_second dist prior _ _ _ hlat h51,
    speedGuard_at_one_second dist prior _ _ _ hlat h49, e51, e49]
  exact ⟨rfl, rfl⟩

/-- Witness for the amended C4 at a concrete store: the prior row sits at
latitude 10, the distance function reports 51 meters toward latitude 11
and 49 meters toward any other point, one second elapses. -/
theorem C4_amended_speed_guard_boundary_witness :
    (updateLocation (fun _ q => if q.latitude == 11 then 51 else 49) (0 + 1000) SBase
      ⟨0, "d", 11, 21, none, none, some 10⟩).1
      = Outcome.returned ⟨false, some "Movement too fast (teleport rejected)"⟩ ∧
    (updateLocation (fun _ q => if q.latitude == 11 then 51 else 49) (0 + 1000) SBase
      ⟨0, "d", 12, 22, none, none, some 10⟩).1
      = Outcome.returned ⟨true, none⟩ :=
  C4_amended_speed_guard_boundary (fun _ q => if q.latitude == 11 then 51 else 49)
    SBase ⟨0, "d", 11, 21, none, none, some 10⟩ ⟨0, "d", 12, 22, none, none, some 10⟩
    ⟨0, "ABC234", none, SessionStatus.active, 0, 14400000⟩
    ⟨1, 0, "d", "Al", "#34D399", 0, 0⟩
    ⟨2, 1, 0, 10, 20, none, none, none, 0, none⟩
    rfl rfl rfl rfl rfl (by norm_num) rfl rfl rfl
    (by with_unfolding_all rfl) (by with_unfolding_all rfl)

/-- Counterexample to claim C3 as stated.  Running createSession on an
empty store creates a presence row (id 2) for the freshly added creator
participant (id 1) at latitude 0, longitude 0 -- a presence row born from
session creation, not from any location submission; joinSession by a new
device likewise inserts one. -/
theorem C3_counterexample :
    (createSession (fun _ => "QQQQQQ") 0 ⟨[], [], [], [], 0⟩ "dev" "Zed").2.presence
      = [⟨2, 1, 0, 0, 0, none, none, none, 0, none⟩] ∧
    (joinSession 5 SBase "ABC234" "e" "Bo").2.presence
      = SBase.presence ++ [⟨4, 3, 0, 0, 0, none, none, none, 5, none⟩] :=
  ⟨rfl, by with_unfolding_all rfl⟩

/-- Claim C3, amended to what the code implements.  A presence row is
created in exactly two ways: when a participant is added to a session --
createSession inserts one for the creator and joinSession inserts one for
each newly joining device, initialized at latitude 0, longitude 0 -- and
by a location submission only when the participant has no presence row
yet.  Re-joining with an already registered device adds nothing, a
location update against an existing row patches in place without adding a
row, and an accepted first update appends exactly the one fresh row. -/
theorem C3_amended_presence_row_creation :
    (∀ (codes : ℕ → String) (now : ℚ) (db : Store) (deviceId displayName : String),
      (createSession codes now db deviceId displayName).2.presence
        = db.presence ++
          [⟨db.nextId + 2, db.nextId + 1, db.nextId, 0, 0, none, none, none, now, none⟩]) ∧
    (∀ (now : ℚ) (db : Store) (code deviceId displayName : String)
       (session : SessionRow),
      db.sessions.find? (fun s => s.code == toUpperCase code) = some session →
      session.status = SessionStatus.active →
      ¬ now > session.expiresAt →
      db.participants.find? (fun p =>
        p.deviceId == deviceId && p.sessionId == session.id) = none →
      (joinSession now db code deviceId displayName).2.presence
        = db.presence ++
          [⟨db.nextId + 1, db.nextId, session.id, 0, 0, none, none, none, now, none⟩]) ∧
    (∀ (now : ℚ) (db : Store) (code deviceId displayName : String)
       (session : SessionRow) (existing : ParticipantRow),
      db.sessions.find? (fun s => s.code == toUpperCase code) = some session →
      session.status = SessionStatus.active →
      ¬ now > session.expiresAt →
      db.participants.find? (fun p =>
        p.deviceId == deviceId && p.sessionId == session.id) = some existing →
      (joinSession now db code deviceId displayName).2 = db) ∧
    (∀ (dist : GeoPoint → GeoPoint → ℚ) (now : ℚ) (db : Store)
       (args : UpdateLocationArgs) (part : ParticipantRow) (prior : PresenceRow),
      findParticipant db args.deviceId args.sessionId = some part →
      findPresence db part.id = some prior →
      (updateLocation dist now db args).2.presence.length = db.presence.length) ∧
    (∀ (dist : GeoPoint → GeoPoint → ℚ) (now : ℚ) (db : Store)
       (args : UpdateLocationArgs) (part : ParticipantRow),
      findParticipant db args.deviceId args.sessionId = some part →
      findPresence db part.id = none →
      isAccepted (updateLocation dist now db args).1 = true →
      (updateLocation dist now db args).2.presence
        = db.presence ++ [freshPresence db.nextId part.id args now]) := by
  refine ⟨fun _ _ _ _ _ => rfl, ?_, ?_, ?_, ?_⟩
  · intro now db code deviceId displayName session hfind hact hexp hnew
    unfold joinSession
    rw [hfind]
    dsimp only
    rw [if_neg (by rw [hact]; exact fun h => h rfl), if_neg hexp, hnew]
  · intro now db code deviceId displayName session existing hfind hact hexp hold
    unfold joinSession
    rw [hfind]
    dsimp only
    rw [if_neg (by rw [hact]; exact fun h => h rfl), if_neg hexp, hold]
  · intro dist now db args part prior hfind hpr
    rcases updateLocation_cases dist now db args with
      ⟨h2, _⟩ | ⟨part2, hfind2, ⟨prior2, _, hc⟩ | ⟨hpr2, hc⟩⟩
    · rw [h2]
    · rw [hc]
      exact List.length_map _ _
    · rw [hfind] at hfind2
      cases hfind2
      rw [hpr] at hpr2
      cases hpr2
  · intro dist now db args part hfind hpr hacc
    rcases updateLocation_cases dist now db args with
      ⟨_, hno⟩ | ⟨part2, hfind2, ⟨prior2, hpr2, hc⟩ | ⟨_, hc⟩⟩
    · rw [hacc] at hno; cases hno
    · rw [hfind] at hfind2
      cases hfind2
      rw [hpr] at hpr2
      cases hpr2
    · rw [hfind] at hfind2
      cases hfind2
      rw [hc]
      rfl

/-- Witness for the amended C3: creation and join on concrete stores, an
already joined device adding nothing, an update patching without adding a
row, and a first update appending exactly one row. -/
theorem C3_amended_presence_row_creation_witness :
    ((createSession (fun _ => "QQQQQQ") 0 ⟨[], [], [], [], 0⟩ "dev" "Zed").2.presence
      = ([] : List PresenceRow) ++ [⟨2, 1, 0, 0, 0, none, none, none, 0, none⟩]) ∧
    ((joinSession 5 SBase "ABC234" "e" "Bo").2.presence
      = SBase.presence ++ [⟨4, 3, 0, 0, 0, none, none, none, 5, none⟩]) ∧
    ((joinSession 5 SBase "ABC234" "d" "Al").2 = SBase) ∧
    ((updateLocation (fun _ _ => 30) 1000 SBase
        ⟨0, "d", 11, 21, none, none, some 50⟩).2.presence.length
      = SBase.presence.length) :=
  ⟨C3_amended_presence_row_creation.1 (fun _ => "QQQQQQ") 0 ⟨[], [], [], [], 0⟩ "dev" "Zed",
   C3_amended_presence_row_creation.2.1 5 SBase "ABC234" "e" "Bo"
     ⟨0, "ABC234", none, SessionStatus.active, 0, 14400000⟩
     (by decide) rfl (by norm_num) (by decide),
   C3_amended_presence_row_creation.2.2.1 5 SBase "ABC234" "d" "Al"
     ⟨0, "ABC234", none, SessionStatus.active, 0, 14400000⟩
     ⟨1, 0, "d", "Al", "#34D399", 0, 0⟩
     (by decide) rfl (by norm_num) (by decide),
   C3_amended_presence_row_creation.2.2.2.1 (fun _ _ => 30) 1000 SBase
     ⟨0, "d", 11, 21, none, none, some 50⟩ ⟨1, 0, "d", "Al", "#34D399", 0, 0⟩
     ⟨2, 1, 0, 10, 20, none, none, none, 0, none⟩ rfl rfl⟩

/-- Claim C8: every cached route of a session with a destination yields a
getETAs entry carrying the cached polyline, distance and ETA (stale routes
are returned, never withheld), and when the participant has a presence
record, the entry is flagged stale exactly when the route age strictly
exceeds five minutes or the distance from the stored origin to the current
presence position strictly exceeds 500 meters -- so at exactly five
minutes and exactly 500 meters it is not stale. -/
theorem C8_staleness_flag_iff (dist : GeoPoint → GeoPoint → ℚ) (now : ℚ)
    (db : Store) (sessionId : ℕ) (session : SessionRow) (dest : DestinationObj)
    (route : RouteRow) (pres : PresenceRow)
    (hs : getSession db sessionId = some session)
    (hd : session.destination = some dest)
    (hr : route ∈ db.routes)
    (hrs : route.sessionId = sessionId)
    (hp : mapLookup (db.presence.filter (fun p => p.sessionId == sessionId))
      route.participantId = some pres) :
    ∃ e ∈ (getETAs dist now db sessionId).etas,
      e.participantId = route.participantId ∧
      e.polyline = route.polyline ∧
      e.distanceMeters = route.distanceMeters ∧
      e.etaSeconds = route.etaSeconds ∧
      (e.isStale = true ↔
        (now - route.computedAt > ROUTE_STALE_MS ∨
         dist ⟨route.originLatitude, route.originLongitude⟩
           ⟨pres.latitude, pres.longitude⟩ > ROUTE_ORIGIN_DRIFT_M)) := by
  unfold getETAs
  rw [hs]
  dsimp only
  rw [hd]
  dsimp only
  refine ⟨etaEntry dist now (db.presence.filter (fun p => p.sessionId == sessionId)) route,
    List.mem_map_of_mem _ (List.mem_filter.mpr ⟨hr, by simp [hrs]⟩), rfl, rfl, rfl, rfl, ?_⟩
  simp only [etaEntry, hp, Bool.or_eq_true, decide_eq_true_eq]

/-- Witness for C8 at the concrete store W8, with the route aged exactly
five minutes and the drift distance exactly 500 meters. -/
theorem C8_staleness_flag_iff_witness :
    ∃ e ∈ (getETAs (fun _ _ => 500) 300000 W8 0).etas,
      e.participantId = 1 ∧
      e.polyline = "poly" ∧
      e.distanceMeters = 1000 ∧
      e.etaSeconds = 60 ∧
      (e.isStale = true ↔
        ((300000 : ℚ) - 0 > ROUTE_STALE_MS ∨
         (fun (_ _ : GeoPoint) => (500 : ℚ)) ⟨10, 20⟩ ⟨10, 20⟩ > ROUTE_ORIGIN_DRIFT_M)) :=
  C8_staleness_flag_iff (fun _ _ => 500) 300000 W8 0
    ⟨0, "ABC234", some ⟨50, 60, none, 0⟩, SessionStatus.active, 0, 14400000⟩
    ⟨50, 60, none, 0⟩ ⟨3, 0, 1, "poly", 1000, 60, 10, 20, 0⟩
    ⟨2, 1, 0, 10, 20, none, none, none, 0, none⟩
    rfl rfl (List.mem_singleton.mpr rfl) rfl rfl

/-- The identity, display fields and liveness flag of a view entry. -/
lemma liveEntry_fields (now : ℚ) (spres : List PresenceRow)
    (part : ParticipantRow) :
    (liveEntry now spres part).id = part.id ∧
    (liveEntry now spres part).isActive
      = decide (now - part.lastSeenAt < STALE_THRESHOLD_MS) :=
  ⟨rfl, rfl⟩

/-- The delay published in a view entry, when the participant has a
presence record carrying a delay annotation: it is the stored annotation
when its age is within the expiry window, and absent otherwise. -/
lemma liveEntry_delay (now : ℚ) (spres : List PresenceRow)
    (part : ParticipantRow) (pres : PresenceRow) (ds : DelayStatus)
    (hp : mapLookup spres part.id = some pres)
    (hds : pres.delayStatus = some ds) :
    (liveEntry now spres part).delay
      = if now - ds.reportedAt > DELAY_EXPIRY_MS then none
        else some ⟨ds.type, ds.delayMinutes, false⟩ := by
  simp only [liveEntry, hp, hds]

/-- Claim C9: a delay annotation reported at time T is included in the
live-participants view read at T plus 14 minutes and omitted from the
view read at T plus 16 minutes -- both reads evaluated against the very
same store, the view being a pure function of the store, so no write
happens between or during the reads and the stored annotation itself is
untouched; expiry is recomputed from the read time alone.  The
participant must pass the 60-second liveness filter at both read times to
appear in the view at all. -/
theorem C9_delay_expiry_read_time (db : Store) (sessionId : ℕ)
    (part : ParticipantRow) (pres : PresenceRow) (ds : DelayStatus)
    (hm : part ∈ db.participants)
    (hsid : part.sessionId = sessionId)
    (hp : mapLookup (db.presence.filter (fun p => p.sessionId == sessionId))
      part.id = some pres)
    (hds : pres.delayStatus = some ds)
    (hlive1 : ds.reportedAt + 14 * 60000 - part.lastSeenAt < STALE_THRESHOLD_MS)
    (hlive2 : ds.reportedAt + 16 * 60000 - part.lastSeenAt < STALE_THRESHOLD_MS) :
    (∃ e ∈ getLiveParticipants (ds.reportedAt + 14 * 60000) db sessionId,
      e.id = part.id ∧ e.delay = some ⟨ds.type, ds.delayMinutes, false⟩) ∧
    (∃ e ∈ getLiveParticipants (ds.reportedAt + 16 * 60000) db sessionId,
      e.id = part.id ∧ e.delay = none) := by
  have hmem : part ∈ db.participants.filter (fun p => p.sessionId == sessionId) :=
    List.mem_filter.mpr ⟨hm, by simp [hsid]⟩
  constructor
  · refine ⟨liveEntry (ds.reportedAt + 14 * 60000)
      (db.presence.filter (fun p => p.sessionId == sessionId)) part,
      List.mem_filter.mpr ⟨List.mem_map_of_mem _ hmem, decide_eq_true hlive1⟩,
      rfl, ?_⟩
    rw [liveEntry_delay _ _ _ _ _ hp hds, if_neg]
    rw [add_sub_cancel_left]
    unfold DELAY_EXPIRY_MS
    norm_num
  · refine ⟨liveEntry (ds.reportedAt + 16 * 60000)
      (db.presence.filter (fun p => p.sessionId == sessionId)) part,
      List.mem_filter.mpr ⟨List.mem_map_of_mem _ hmem, decide_eq_true hlive2⟩,
      rfl, ?_⟩
    rw [liveEntry_delay _ _ _ _ _ hp hds, if_pos]
    rw [add_sub_cancel_left]
    unfold DELAY_EXPIRY_MS
    norm_num

/-- Store for the C9 witness: the delay was reported at time 0 and the
participant was last seen at 930000 (15.5 minutes), so the participant is
live at both read times 840000 and 960000. -/
def SDelay : Store :=
  ⟨[⟨0, "ABC234", none, SessionStatus.active, 0, 14400000⟩],
   [⟨1, 0, "d", "Al", "#34D399", 0, 930000⟩],
   [⟨2, 1, 0, 10, 20, none, none, none, 0, some ⟨DelayType.slow, 7, 0⟩⟩],
   [], 3⟩

/-- Witness for C9 at the concrete store SDelay. -/
theorem C9_delay_expiry_read_time_witness :
    (∃ e ∈ getLiveParticipants ((0 : ℚ) + 14 * 60000) SDelay 0,
      e.id = 1 ∧ e.delay = some ⟨DelayType.slow, 7, false⟩) ∧
    (∃ e ∈ getLiveParticipants ((0 : ℚ) + 16 * 60000) SDelay 0,
      e.id = 1 ∧ e.delay = none) :=
  C9_delay_expiry_read_time SDelay 0 ⟨1, 0, "d", "Al", "#34D399", 0, 930000⟩
    ⟨2, 1, 0, 10, 20, none, none, none, 0, some ⟨DelayType.slow, 7, 0⟩⟩
    ⟨DelayType.slow, 7, 0⟩
    (List.mem_singleton.mpr rfl) rfl rfl rfl
    (by unfold STALE_THRESHOLD_MS; norm_num)
    (by unfold STALE_THRESHOLD_MS; norm_num)

/-- Two presence rows that agree on everything except possibly the delay
annotation. -/
def presenceDelayAgnostic (p q : PresenceRow) : Prop :=
  p.id = q.id ∧ p.participantId = q.participantId ∧ p.sessionId = q.sessionId ∧
  p.latitude = q.latitude ∧ p.longitude = q.longitude ∧ p.heading = q.heading ∧
  p.speed = q.speed ∧ p.accuracy = q.accuracy ∧ p.updatedAt = q.updatedAt

/-- Two stores that differ only in the delay annotations of presence
rows. -/
def delayAgnostic (db db' : Store) : Prop :=
  db.sessions = db'.sessions ∧ db.participants = db'.participants ∧
  db.routes = db'.routes ∧ db.nextId = db'.nextId ∧
  List.Forall₂ presenceDelayAgnostic db.presence db'.presence

lemma forall2_filter_sid (sid : ℕ) :
    ∀ {l l' : List PresenceRow}, List.Forall₂ presenceDelayAgnostic l l' →
      List.Forall₂ presenceDelayAgnostic
        (l.filter (fun p => p.sessionId == sid))
        (l'.filter (fun p => p.sessionId == sid)) := by
  intro l l' h
  induction h with
  | nil => exact List.Forall₂.nil
  | cons hab htail ih =>
    rename_i a b l₁ l₂
    have hpb : (b.sessionId == sid) = (a.sessionId == sid) := by rw [hab.2.2.1]
    cases hpa : (a.sessionId == sid) with
    | true =>
      rw [List.filter_cons, List.filter_cons, hpa, hpb, hpa, if_pos rfl, if_pos rfl]
      exact List.Forall₂.cons hab ih
    | false =>
      rw [List.filter_cons, List.filter_cons, hpa, hpb, hpa,
        if_neg Bool.false_ne_true, if_neg Bool.false_ne_true]
      exact ih

lemma forall2_reverse {R : PresenceRow → PresenceRow → Prop}
    {l l' : List PresenceRow} (h : List.Forall₂ R l l') :
    List.Forall₂ R l.reverse l'.reverse :=
  List.rel_reverse h

lemma find?_rel_agnostic (p : PresenceRow → Bool)
    (hp : ∀ a b, presenceDelayAgnostic a b → p a = p b) :
    ∀ {l l' : List PresenceRow}, List.Forall₂ presenceDelayAgnostic l l' →
      ((l.find? p = none ∧ l'.find? p = none) ∨
       ∃ a b, presenceDelayAgnostic a b ∧ l.find? p = some a ∧ l'.find? p = some b) := by
  intro l l' h
  induction h with
  | nil => exact Or.inl ⟨rfl, rfl⟩
  | cons hab htail ih =>
    rename_i a b l₁ l₂
    cases hpa : p a with
    | true =>
      exact Or.inr ⟨a, b, hab, List.find?_cons_of_pos _ hpa,
        List.find?_cons_of_pos _ (by rw [← hp a b hab]; exact hpa)⟩
    | false =>
      rw [List.find?_cons_of_neg _ (by simp only [hpa]; exact Bool.false_ne_true),
        List.find?_cons_of_neg _ (by rw [← hp a b hab, hpa]; exact Bool.false_ne_true)]
      exact ih

/-- Related presence stores yield related (or jointly absent) results
from the Map lookup the queries use. -/
lemma mapLookup_rel_agnostic (pid : ℕ) {l l' : List PresenceRow}
    (h : List.Forall₂ presenceDelayAgnostic l l') :
    (mapLookup l pid = none ∧ mapLookup l' pid = none) ∨
    ∃ a b, presenceDelayAgnostic a b ∧
      mapLookup l pid = some a ∧ mapLookup l' pid = some b := by
  unfold mapLookup
  exact find?_rel_agnostic _ (fun a b hab => by rw [hab.2.1]) (forall2_reverse h)

lemma cacheRoute_routes_agnostic (now : ℚ) (db db' : Store)
    (sessionId participantId : ℕ) (polyline : String)
    (distanceMeters etaSeconds originLatitude originLongitude : ℚ)
    (hroutes : db.routes = db'.routes) (hnext : db.nextId = db'.nextId) :
    (cacheRoute now db sessionId participantId polyline distanceMeters
      etaSeconds originLatitude originLongitude).routes
    = (cacheRoute now db' sessionId participantId polyline distanceMeters
      etaSeconds originLatitude originLongitude).routes := by
  unfold cacheRoute
  rw [← hroutes, ← hnext]
  cases List.find? (fun r => r.participantId == participantId) db.routes <;> rfl

/-- Claim C10: the delay annotation never feeds into ETA or route
computation.  For any two stores that differ only in the presence rows
delay annotations, getETAs returns identical results, and computeRoute
returns the same result and produces the same routes cache -- the cached
geometry, distance and duration are independent of every delay
annotation. -/
theorem C10_delay_never_feeds_eta (dist : GeoPoint → GeoPoint → ℚ)
    (now : ℚ) (sessionId : ℕ) (response : OsrmOutcome)
    (cargs : ComputeRouteArgs) (db db' : Store)
    (h : delayAgnostic db db') :
    getETAs dist now db sessionId = getETAs dist now db' sessionId ∧
    (computeRoute response now db cargs).1 = (computeRoute response now db' cargs).1 ∧
    (computeRoute response now db cargs).2.routes
      = (computeRoute response now db' cargs).2.routes := by
  obtain ⟨hsess, hpart, hroutes, hnext, hpres⟩ := h
  refine ⟨?_, ?_, ?_⟩
  · have hg : getSession db' sessionId = getSession db sessionId := by
      unfold getSession; rw [hsess]
    unfold getETAs
    rw [hg, ← hroutes]
    cases hs : getSession db sessionId with
    | none => rfl
    | some session =>
      dsimp only
      cases hdest : session.destination with
      | none => rfl
      | some dest =>
        dsimp only
        have hfilter := forall2_filter_sid sessionId hpres
        congr 1
        apply List.map_congr_left
        intro r hr
        unfold etaEntry
        rcases mapLookup_rel_agnostic r.participantId hfilter with
          ⟨hn1, hn2⟩ | ⟨a, b, hab, ha, hb⟩
        · rw [hn1, hn2]
        · rw [ha, hb]
          dsimp only
          rw [hab.2.2.2.1, hab.2.2.2.2.1]
  · cases response with
    | fetchFailed => rfl
    | httpNotOk status => rfl
    | payload routes =>
      cases routes with
      | nil => rfl
      | cons route rest => rfl
  · cases response with
    | fetchFailed => exact hroutes
    | httpNotOk status => exact hroutes
    | payload routes =>
      cases routes with
      | nil => exact hroutes
      | cons route rest =>
        exact cacheRoute_routes_agnostic now db db' cargs.sessionId
          cargs.participantId route.geometry route.distance route.duration
          cargs.originLatitude cargs.originLongitude hroutes hnext

/-- Store identical to SDelay except that the delay annotation is
cleared. -/
def SDelayCleared : Store :=
  ⟨[⟨0, "ABC234", none, SessionStatus.active, 0, 14400000⟩],
   [⟨1, 0, "d", "Al", "#34D399", 0, 930000⟩],
   [⟨2, 1, 0, 10, 20, none, none, none, 0, none⟩],
   [], 3⟩

/-- Witness for C10: SDelay and SDelayCleared differ exactly in one delay
annotation, and both queries agree on them. -/
theorem C10_delay_never_feeds_eta_witness :
    getETAs (fun _ _ => 0) 7 SDelay 0 = getETAs (fun _ _ => 0) 7 SDelayCleared 0 ∧
    (computeRoute (OsrmOutcome.payload [⟨"g", 9, 8⟩]) 7 SDelay ⟨0, 1, 1, 2, 3, 4⟩).1
      = (computeRoute (OsrmOutcome.payload [⟨"g", 9, 8⟩]) 7 SDelayCleared ⟨0, 1, 1, 2, 3, 4⟩).1 ∧
    (computeRoute (OsrmOutcome.payload [⟨"g", 9, 8⟩]) 7 SDelay ⟨0, 1, 1, 2, 3, 4⟩).2.routes
      = (computeRoute (OsrmOutcome.payload [⟨"g", 9, 8⟩]) 7 SDelayCleared ⟨0, 1, 1, 2, 3, 4⟩).2.routes :=
  C10_delay_never_feeds_eta (fun _ _ => 0) 7 0 (OsrmOutcome.payload [⟨"g", 9, 8⟩])
    ⟨0, 1, 1, 2, 3, 4⟩ SDelay SDelayCleared
    ⟨rfl, rfl, rfl, rfl,
     List.Forall₂.cons ⟨rfl, rfl, rfl, rfl, rfl, rfl, rfl, rfl, rfl⟩ List.Forall₂.nil⟩

/-
  Supporting lemmas for the snapshot invariant (claim C1).
-/

/-- Under distinct presence ids, two member rows with the same id are the
same row. -/
lemma presence_id_unique {l : List PresenceRow}
    (h : (l.map (fun p => p.id)).Nodup) {a b : PresenceRow}
    (ha : a ∈ l) (hb : b ∈ l) (hid : a.id = b.id) : a = b :=
  List.inj_on_of_nodup_map h ha hb hid

/-- Nat equality out of a boolean equality test. -/
lemma nat_beq_eq {a b : ℕ} (h : (a == b) = true) : a = b := by
  simpa using h

/-- A found presence row is a member carrying the looked-up participant
id. -/
lemma findPresence_facts {db : Store} {pid : ℕ} {prior : PresenceRow}
    (h : findPresence db pid = some prior) :
    prior ∈ db.presence ∧ prior.participantId = pid := by
  have h2 : db.presence.find? (fun p => p.participantId == pid) = some prior := h
  have h3p := @List.find?_some PresenceRow (fun p => p.participantId == pid) prior db.presence h2
  have h3 : (prior.participantId == pid) = true := h3p
  exact ⟨List.mem_of_find?_eq_some h2, nat_beq_eq h3⟩

/-- With at most one row for the participant, the found row is the whole
filtered list. -/
lemma presenceOf_single {db : Store} {pid : ℕ} {prior : PresenceRow}
    (hcount : countPresence db pid ≤ 1)
    (h : findPresence db pid = some prior) :
    presenceOf db pid = [prior] := by
  obtain ⟨hmem, _⟩ := findPresence_facts h
  have h2 : db.presence.find? (fun p => p.participantId == pid) = some prior := h
  have h3p := @List.find?_some PresenceRow (fun p => p.participantId == pid) prior db.presence h2
  have h3 : (prior.participantId == pid) = true := h3p
  have hmemf : prior ∈ presenceOf db pid :=
    List.mem_filter.mpr ⟨hmem, h3⟩
  have hpos : 0 < (presenceOf db pid).length :=
    List.length_pos.mpr (List.ne_nil_of_mem hmemf)
  have hlen : (presenceOf db pid).length = 1 := le_antisymm hcount hpos
  obtain ⟨a, ha⟩ := List.length_eq_one.mp hlen
  rw [ha] at hmemf
  rw [ha, List.mem_singleton.mp hmemf]

/-- An absent find gives an empty filtered list. -/
lemma presenceOf_nil {db : Store} {pid : ℕ}
    (h : findPresence db pid = none) : presenceOf db pid = [] := by
  have hall := List.find?_eq_none.mp h
  unfold presenceOf
  rw [List.filter_eq_nil_iff]
  exact fun p hp => hall p hp

/-- A patch-by-id map commutes with any participant filter when the
patched value keeps the participant id of its target. -/
lemma filter_patch_comm {l : List PresenceRow}
    (hnodup : (l.map (fun p => p.id)).Nodup) {prior patched : PresenceRow}
    (hmem : prior ∈ l) (hpid : patched.participantId = prior.participantId)
    (q : ℕ) :
    (l.map (fun p => if p.id == prior.id then patched else p)).filter
      (fun p => p.participantId == q)
    = (l.filter (fun p => p.participantId == q)).map
      (fun p => if p.id == prior.id then patched else p) := by
  apply filter_map_comm
  intro a ha
  cases hid : (a.id == prior.id) with
  | true =>
    have heq : a = prior :=
      presence_id_unique hnodup ha hmem (nat_beq_eq hid)
    rw [if_pos rfl, hpid, heq]
  | false =>
    rw [if_neg Bool.false_ne_true]

/-- Patching by id preserves the id sequence of the presence list. -/
lemma map_id_patch {l : List PresenceRow} {prior patched : PresenceRow}
    (hid2 : patched.id = prior.id) :
    (l.map (fun p => if p.id == prior.id then patched else p)).map (fun p => p.id)
      = l.map (fun p => p.id) := by
  rw [List.map_map]
  apply List.map_congr_left
  intro a _
  show (if a.id == prior.id then patched else a).id = a.id
  cases hida : (a.id == prior.id) with
  | true => rw [if_pos rfl, hid2, nat_beq_eq hida]
  | false => rw [if_neg Bool.false_ne_true]

/-- The lastSeenAt patch commutes with the participant lookup. -/
lemma findParticipant_patchLastSeen (db : Store) (qid : ℕ) (t : ℚ)
    (d : String) (s : ℕ) :
    findParticipant (patchLastSeen db qid t) d s
      = (findParticipant db d s).map
          (fun p => if p.id == qid then { p with lastSeenAt := t } else p) := by
  unfold findParticipant patchLastSeen
  dsimp only
  apply find?_map_comm
  intro a _
  cases h : (a.id == qid) with
  | true => rw [if_pos rfl]
  | false => rw [if_neg Bool.false_ne_true]

/-- One accepted update: the wellformedness, the participant lookup and
the one-row bound are preserved, rows of other participants are
untouched, and afterwards the participant has exactly one presence row
carrying precisely the submitted fields stamped with the call time. -/
lemma accept_step (dist : GeoPoint → GeoPoint → ℚ) (now : ℚ) (db : Store)
    (args : UpdateLocationArgs) (d : String) (s pid : ℕ)
    (hd : args.deviceId = d) (hs : args.sessionId = s)
    (hok : PresenceIdsOk db) (part : ParticipantRow)
    (hf : findParticipant db d s = some part) (hpid : part.id = pid)
    (hcount : countPresence db pid ≤ 1)
    (hacc : isAccepted (updateLocation dist now db args).1 = true) :
    PresenceIdsOk (updateLocation dist now db args).2 ∧
    (∃ part2, findParticipant (updateLocation dist now db args).2 d s = some part2 ∧
      part2.id = pid) ∧
    (∀ q, countPresence (updateLocation dist now db args).2 q
      = if q = pid then 1 else countPresence db q) ∧
    (∃ r, presenceOf (updateLocation dist now db args).2 pid = [r] ∧
      r.participantId = pid ∧ r.latitude = args.latitude ∧
      r.longitude = args.longitude ∧ r.heading = args.heading ∧
      r.speed = args.speed ∧ r.accuracy = args.accuracy ∧ r.updatedAt = now) := by
  rcases updateLocation_cases dist now db args with
    ⟨_, hno⟩ | ⟨part2, hfind2, ⟨prior, hprior, heq⟩ | ⟨hnone, heq⟩⟩
  · rw [hacc] at hno; cases hno
  · -- patch-in-place case
    rw [hd, hs, hf] at hfind2
    cases hfind2
    rw [hpid] at hprior
    obtain ⟨hmem, hpp⟩ := findPresence_facts hprior
    have hpatched_pid : (patchedPresence prior args now).participantId
      = prior.participantId := rfl
    have hpresence : (updateLocation dist now db args).2.presence
        = db.presence.map
            (fun p => if p.id == prior.id then patchedPresence prior args now else p) := by
      rw [heq]
      rfl
    have hnext : (updateLocation dist now db args).2.nextId = db.nextId := by
      rw [heq]
      rfl
    have hcounts : ∀ q, countPresence (updateLocation dist now db args).2 q
        = countPresence db q := by
      intro q
      unfold countPresence presenceOf
      rw [hpresence, filter_patch_comm hok.1 hmem hpatched_pid, List.length_map]
    have hone : countPresence db pid = 1 := by
      have h2 : db.presence.find? (fun p => p.participantId == pid) = some prior := hprior
      have h3p := @List.find?_some PresenceRow (fun p => p.participantId == pid)
        prior db.presence h2
      have h3 : (prior.participantId == pid) = true := h3p
      have hmemf : prior ∈ presenceOf db pid := List.mem_filter.mpr ⟨hmem, h3⟩
      have hpos : 0 < countPresence db pid :=
        List.length_pos.mpr (List.ne_nil_of_mem hmemf)
      exact le_antisymm hcount hpos
    refine ⟨⟨?_, ?_⟩, ?_, ?_, ?_⟩
    · rw [hpresence,
        @map_id_patch db.presence prior (patchedPresence prior args now) rfl]
      exact hok.1
    · intro p hp
      rw [hpresence] at hp
      rw [hnext]
      obtain ⟨a, ha, hfa⟩ := List.mem_map.mp hp
      rw [← hfa]
      show (if a.id == prior.id then patchedPresence prior args now else a).id < db.nextId
      cases hida : (a.id == prior.id) with
      | true =>
        rw [if_pos rfl]
        show prior.id < db.nextId
        exact hok.2 prior hmem
      | false =>
        rw [if_neg Bool.false_ne_true]
        exact hok.2 a ha
    · rw [heq]
      have hfp : findParticipant
          { db with presence :=
              db.presence.map (fun p =>
                if p.id == prior.id then patchedPresence prior args now else p) }
          d s = some part := hf
      rw [findParticipant_patchLastSeen, hfp]
      refine ⟨_, rfl, ?_⟩
      dsimp only
      rw [if_pos (beq_self_eq_true part.id)]
      exact hpid
    · intro q
      rw [hcounts q]
      by_cases hq : q = pid
      · rw [if_pos hq, hq, hone]
      · rw [if_neg hq]
    · refine ⟨patchedPresence prior args now, ?_, ?_, rfl, rfl, rfl, rfl, rfl, rfl⟩
      · unfold countPresence at hcount
        unfold presenceOf
        rw [hpresence, filter_patch_comm hok.1 hmem hpatched_pid]
        have hsingle : presenceOf db pid = [prior] := presenceOf_single hcount hprior
        unfold presenceOf at hsingle
        rw [hsingle, List.map_cons, List.map_nil, if_pos (beq_self_eq_true prior.id)]
      · rw [hpatched_pid, hpp]
  · -- first-time insert case
    rw [hd, hs, hf] at hfind2
    cases hfind2
    rw [hpid] at hnone
    have hempty : presenceOf db pid = [] := presenceOf_nil hnone
    have hpresence : (updateLocation dist now db args).2.presence
        = db.presence ++ [freshPresence db.nextId part.id args now] := by
      rw [heq]
      rfl
    have hnext : (updateLocation dist now db args).2.nextId = db.nextId + 1 := by
      rw [heq]
      rfl
    have hrowpid : (freshPresence db.nextId part.id args now).participantId = pid := hpid
    refine ⟨⟨?_, ?_⟩, ?_, ?_, ?_⟩
    · rw [hpresence, List.map_append, List.map_singleton, List.nodup_append]
      refine ⟨hok.1, List.nodup_singleton _, ?_⟩
      intro x hx
      obtain ⟨a, ha, hfa⟩ := List.mem_map.mp hx
      rw [List.mem_singleton]
      intro hcontra
      have hxa : a.id = x := hfa
      have hxn : x = db.nextId := hcontra
      have hlt := hok.2 a ha
      rw [hxa, hxn] at hlt
      exact lt_irrefl _ hlt
    · intro p hp
      rw [hpresence] at hp
      rw [hnext]
      rcases List.mem_append.mp hp with hold | hnew
      · exact Nat.lt_trans (hok.2 p hold) (Nat.lt_succ_self _)
      · rw [List.mem_singleton.mp hnew]
        exact Nat.lt_succ_self _
    · rw [heq]
      have hfp : findParticipant
          { db with
              presence := db.presence ++ [freshPresence db.nextId part.id args now]
              nextId := db.nextId + 1 }
          d s = some part := hf
      rw [findParticipant_patchLastSeen, hfp]
      refine ⟨_, rfl, ?_⟩
      dsimp only
      rw [if_pos (beq_self_eq_true part.id)]
      exact hpid
    · intro q
      unfold countPresence presenceOf
      rw [hpresence, List.filter_append]
      by_cases hq : q = pid
      · rw [if_pos hq, hq]
        have h1 : db.presence.filter (fun p => p.participantId == pid) = [] := hempty
        rw [h1]
        rw [List.filter_cons, List.filter_nil]
        rw [show ((freshPresence db.nextId part.id args now).participantId == pid) = true by
          rw [hrowpid]; exact beq_self_eq_true pid]
        rw [if_pos rfl]
        rfl
      · rw [if_neg hq]
        rw [List.filter_cons, List.filter_nil]
        rw [show ((freshPresence db.nextId part.id args now).participantId == q) = false by
          rw [hrowpid]
          exact beq_eq_false_iff_ne.mpr (fun hcontra => hq hcontra.symm)]
        rw [if_neg Bool.false_ne_true]
        rw [List.append_nil]
    · refine ⟨freshPresence db.nextId part.id args now, ?_, hrowpid, rfl, rfl, rfl, rfl, rfl, rfl⟩
      unfold presenceOf
      rw [hpresence, List.filter_append]
      have h1 : db.presence.filter (fun p => p.participantId == pid) = [] := hempty
      rw [h1]
      rw [List.filter_cons, List.filter_nil]
      rw [show ((freshPresence db.nextId part.id args now).participantId == pid) = true by
        rw [hrowpid]; exact beq_self_eq_true pid]
      rw [if_pos rfl]
      rfl

/-- A run in which no update is accepted leaves the store untouched. -/
lemma no_accept_no_change (dist : GeoPoint → GeoPoint → ℚ) :
    ∀ (updates : List (ℚ × UpdateLocationArgs)) (db : Store),
      acceptedUpdates dist db updates = [] → runUpdates dist db updates = db := by
  intro updates
  induction updates with
  | nil => intro db _; rfl
  | cons u rest ih =>
    intro db h
    simp only [acceptedUpdates] at h
    simp only [runUpdates]
    revert h
    cases hIA : isAccepted (updateLocation dist u.1 db u.2).1 with
    | true =>
      intro h
      rw [if_pos rfl] at h
      cases h
    | false =>
      intro h
      rw [if_neg Bool.false_ne_true] at h
      have hstore := not_accepted_store_unchanged dist u.1 db u.2 hIA
      rw [hstore] at h ⊢
      exact ih db h

/-- The inductive core of the snapshot invariant: folding any sequence of
updates of one participant through the store preserves the wellformedness
and the one-row bound, leaves other participants untouched, never deletes
a row, and ends -- whenever at least one update was accepted -- with
exactly one row for the participant carrying the fields of the last
accepted update. -/
lemma snapshot_aux (dist : GeoPoint → GeoPoint → ℚ) (d : String) (s pid : ℕ) :
    ∀ (updates : List (ℚ × UpdateLocationArgs)) (db : Store),
      PresenceIdsOk db →
      (∃ part, findParticipant db d s = some part ∧ part.id = pid) →
      countPresence db pid ≤ 1 →
      (∀ u ∈ updates, u.2.deviceId = d ∧ u.2.sessionId = s) →
      (∀ q, q ≠ pid → countPresence (runUpdates dist db updates) q = countPresence db q) ∧
      countPresence (runUpdates dist db updates) pid ≤ 1 ∧
      countPresence db pid ≤ countPresence (runUpdates dist db updates) pid ∧
      (∀ t args, (acceptedUpdates dist db updates).getLast? = some (t, args) →
        ∃ r, presenceOf (runUpdates dist db updates) pid = [r] ∧
          r.participantId = pid ∧ r.latitude = args.latitude ∧
          r.longitude = args.longitude ∧ r.heading = args.heading ∧
          r.speed = args.speed ∧ r.accuracy = args.accuracy ∧ r.updatedAt = t) := by
  intro updates
  induction updates with
  | nil =>
    intro db hok hfind hcount hdev
    exact ⟨fun q _ => rfl, hcount, le_refl _, fun t args h => by cases h⟩
  | cons u rest ih =>
    intro db hok hfind hcount hdev
    simp only [runUpdates, acceptedUpdates]
    cases hIA : isAccepted (updateLocation dist u.1 db u.2).1 with
    | false =>
      rw [if_neg Bool.false_ne_true]
      have hstore := not_accepted_store_unchanged dist u.1 db u.2 hIA
      rw [hstore]
      exact ih db hok hfind hcount (fun v hv => hdev v (List.mem_cons_of_mem u hv))
    | true =>
      rw [if_pos rfl]
      obtain ⟨part, hf, hpid⟩ := hfind
      obtain ⟨hok2, hfind2, hcounts2, hrow2⟩ :=
        accept_step dist u.1 db u.2 d s pid (hdev u (List.mem_cons_self u rest)).1
          (hdev u (List.mem_cons_self u rest)).2 hok part hf hpid hcount hIA
      have hone : countPresence (updateLocation dist u.1 db u.2).2 pid = 1 := by
        rw [hcounts2 pid, if_pos rfl]
      have hcount2 : countPresence (updateLocation dist u.1 db u.2).2 pid ≤ 1 :=
        le_of_eq hone
      obtain ⟨ihq, ihle, ihge, ihlast⟩ :=
        ih (updateLocation dist u.1 db u.2).2 hok2 hfind2 hcount2
          (fun v hv => hdev v (List.mem_cons_of_mem u hv))
      refine ⟨?_, ihle, ?_, ?_⟩
      · intro q hq
        rw [ihq q hq, hcounts2 q, if_neg hq]
      · calc countPresence db pid ≤ 1 := hcount
          _ = countPresence (updateLocation dist u.1 db u.2).2 pid := hone.symm
          _ ≤ countPresence
              (runUpdates dist (updateLocation dist u.1 db u.2).2 rest) pid := ihge
      · intro t args hlast
        cases htail : acceptedUpdates dist (updateLocation dist u.1 db u.2).2 rest with
        | nil =>
          rw [htail, List.getLast?_singleton] at hlast
          have hu : u = (t, args) := Option.some.inj hlast
          have hrun : runUpdates dist (updateLocation dist u.1 db u.2).2 rest
              = (updateLocation dist u.1 db u.2).2 :=
            no_accept_no_change dist rest (updateLocation dist u.1 db u.2).2 htail
          rw [hrun]
          obtain ⟨r, hr, hrpid, hrlat, hrlng, hrhead, hrspeed, hracc, hrupd⟩ := hrow2
          have ht : t = u.1 := by rw [hu]
          have hargs : args = u.2 := by rw [hu]
          rw [ht, hargs]
          exact ⟨r, hr, hrpid, hrlat, hrlng, hrhead, hrspeed, hracc, hrupd⟩
        | cons v l =>
          rw [htail, List.getLast?_cons_cons] at hlast
          exact ihlast t args (by rw [htail]; exact hlast)

/-- Claim C1, the snapshot invariant: starting from a wellformed store in
which a registered participant has at most one presence row, any sequence
of location updates submitted by that participant leaves every other
participant with an unchanged presence row count, never deletes a row and
never creates a second row for the participant, and -- whenever at least
one update in the sequence was accepted -- leaves the store with exactly
one presence row for the participant, whose latitude, longitude, heading,
speed, accuracy and timestamp are precisely those of the last accepted
update. -/
theorem C1_snapshot_invariant (dist : GeoPoint → GeoPoint → ℚ) (db : Store)
    (deviceId : String) (sessionId : ℕ) (part : ParticipantRow)
    (updates : List (ℚ × UpdateLocationArgs))
    (hok : PresenceIdsOk db)
    (hfind : findParticipant db deviceId sessionId = some part)
    (hcount : countPresence db part.id ≤ 1)
    (hdev : ∀ u ∈ updates, u.2.deviceId = deviceId ∧ u.2.sessionId = sessionId) :
    (∀ q, q ≠ part.id →
      countPresence (runUpdates dist db updates) q = countPresence db q) ∧
    countPresence (runUpdates dist db updates) part.id ≤ 1 ∧
    countPresence db part.id ≤ countPresence (runUpdates dist db updates) part.id ∧
    (∀ t args, (acceptedUpdates dist db updates).getLast? = some (t, args) →
      ∃ r, presenceOf (runUpdates dist db updates) part.id = [r] ∧
        r.participantId = part.id ∧ r.latitude = args.latitude ∧
        r.longitude = args.longitude ∧ r.heading = args.heading ∧
        r.speed = args.speed ∧ r.accuracy = args.accuracy ∧ r.updatedAt = t) :=
  snapshot_aux dist deviceId sessionId part.id updates db hok
    ⟨part, hfind, rfl⟩ hcount hdev

/-- A concrete three-update sequence for the C1 witness: an accepted
update, a low-accuracy rejection, then another accepted update. -/
def updatesC : List (ℚ × UpdateLocationArgs) :=
  [(1000, ⟨0, "d", 11, 21, none, none, some 50⟩),
   (2000, ⟨0, "d", 12, 22, none, none, some 150⟩),
   (3000, ⟨0, "d", 13, 23, some 90, some 5, some 40⟩)]

/-- Witness for C1 at the concrete store SBase and sequence updatesC. -/
theorem C1_snapshot_invariant_witness :
    (∀ q, q ≠ 1 →
      countPresence (runUpdates (fun _ _ => 30) SBase updatesC) q
        = countPresence SBase q) ∧
    countPresence (runUpdates (fun _ _ => 30) SBase updatesC) 1 ≤ 1 ∧
    countPresence SBase 1 ≤ countPresence (runUpdates (fun _ _ => 30) SBase updatesC) 1 ∧
    (∀ t args, (acceptedUpdates (fun _ _ => 30) SBase updatesC).getLast? = some (t, args) →
      ∃ r, presenceOf (runUpdates (fun _ _ => 30) SBase updatesC) 1 = [r] ∧
        r.participantId = 1 ∧ r.latitude = args.latitude ∧
        r.longitude = args.longitude ∧ r.heading = args.heading ∧
        r.speed = args.speed ∧ r.accuracy = args.accuracy ∧ r.updatedAt = t) :=
  C1_snapshot_invariant (fun _ _ => 30) SBase "d" 0
    ⟨1, 0, "d", "Al", "#34D399", 0, 0⟩ updatesC
    ⟨by decide, by decide⟩ rfl (by decide) (by decide)

end Gather
